import Mathlib

/-!
Verification of the Task Service (GraphQL API) of the UTSIAE_ATHIYAH
repository. The definitions below are a shallow embedding of
services/graphql-api/server.js: the in-memory store (tasks and
taskActivities), the GraphQL resolvers (createTask, updateTask,
deleteTask, the Task.activities field resolver), the JWT verification
helpers (getAuthPublicKey, decodeToken) and the ApolloServer context
builder. Global mutable state is made explicit: each mutation takes the
current store and returns the result, the successor store and the list
of published pub/sub events. Timestamps (new Date().toISOString()) and
generated ids (uuidv4) are passed as explicit arguments. A thrown
JavaScript error is an Except.error value; every throw in the source
happens before any store mutation, so an error result carries the
unchanged store.
-/

namespace TaskService

/-- TaskStatus enum of the GraphQL schema: TODO, IN_PROGRESS, DONE. -/
inductive TaskStatus where
  | TODO
  | IN_PROGRESS
  | DONE
deriving Repr, DecidableEq

/-- Task record as stored in the tasks array of server.js. -/
structure Task where
  id : String
  title : String
  description : String
  status : TaskStatus
  assignee : String
  createdAt : Nat
  updatedAt : Nat
deriving Repr, DecidableEq

/-- TaskActivity record as stored in the taskActivities array. -/
structure Activity where
  id : String
  taskId : String
  message : String
  author : String
  createdAt : Nat
deriving Repr, DecidableEq

/-- The two in-memory collections of server.js: tasks and taskActivities. -/
structure Store where
  tasks : List Task
  activities : List Activity
deriving Repr, DecidableEq

/-- Caller identity as assembled by the ApolloServer context function. -/
structure Context where
  userId : String
  userName : String
  userEmail : String
  userTeams : List String
  userRole : String
deriving Repr, DecidableEq

/-- Errors thrown by the resolvers. The source throws plain Error values
with distinct messages; each distinct message is one constructor.
authRequired is "Authentication required ...", notFound is
"Task not found", forbidden is "You are not allowed to ...". -/
inductive Err where
  | authRequired
  | notFound
  | forbidden
deriving Repr, DecidableEq

/-- Pub/sub events published via pubsub.publish. -/
inductive Event where
  | taskCreated (t : Task)
  | taskUpdated (t : Task)
  | taskDeleted (id : String)
  | activityAdded (a : Activity)
deriving Repr, DecidableEq

/-- Outcome of one resolver call: the returned value or thrown error,
the store after the call, and the events published during the call. -/
structure MutResult (α : Type) where
  result : Except Err α
  store : Store
  events : List Event
deriving Repr

/-- Boolean uniqueness of the task ids in a list (spec invariant: Task
ids are unique). -/
def uniqueIds : List Task → Bool
  | [] => true
  | t :: ts => ts.all (fun u => u.id != t.id) && uniqueIds ts

/-- Boolean referential integrity: every activity's taskId names an
existing task (spec invariant). -/
def refIntact (st : Store) : Bool :=
  st.activities.all (fun a => st.tasks.any (fun t => t.id == a.taskId))

/-- Resolver Task.activities (also Store listActivities): filters
taskActivities by taskId, insertion order. -/
def listActivities (st : Store) (taskId : String) : List Activity :=
  st.activities.filter (fun a => a.taskId == taskId)

/-- Mutation createTask of server.js: throws when context.userId is
empty, otherwise builds the task (id := uuidv4() passed as newId, status
TODO, assignee := assignee or context.userName or "Unassigned",
createdAt = updatedAt = now), pushes it and publishes TASK_CREATED. -/
def createTask (ctx : Context) (title description assignee : String)
    (newId : String) (now : Nat) (st : Store) : MutResult Task :=
  if ctx.userId = "" then
    ⟨.error .authRequired, st, []⟩
  else
    let task : Task :=
      { id := newId
        title := title
        description := description
        status := .TODO
        assignee :=
          if assignee ≠ "" then assignee
          else if ctx.userName ≠ "" then ctx.userName
          else "Unassigned"
        createdAt := now
        updatedAt := now }
    ⟨.ok task, { st with tasks := st.tasks ++ [task] }, [.taskCreated task]⟩

/-- JavaScript truthiness merge used by updateTask: the spread
...(field && { field }) keeps the old value when the argument is absent
(none) or the empty string, which is falsy. -/
def mergeStr : Option String → String → String
  | some s, old => if s = "" then old else s
  | none, old => old

/-- Merged task built by updateTask: only truthy provided fields
overwrite, updatedAt is stamped to now. A provided status is a nonempty
enum string in the source, hence always truthy. -/
def mergeFields (title description : Option String) (status : Option TaskStatus)
    (assignee : Option String) (now : Nat) (t : Task) : Task :=
  { t with
    title := mergeStr title t.title
    description := mergeStr description t.description
    status := match status with | some s => s | none => t.status
    assignee := mergeStr assignee t.assignee
    updatedAt := now }

/-- Body of updateTask over the tasks array: findIndex on id, throw
notFound at -1, throw forbidden unless the caller's role is admin or the
task's assignee equals the caller's name, else replace the first
matching task with the merged one. Only userRole and userName of the
context are consulted. -/
def updateIn (userRole userName : String) (id : String)
    (title description : Option String) (status : Option TaskStatus)
    (assignee : Option String) (now : Nat) : List Task → Except Err (Task × List Task)
  | [] => .error .notFound
  | t :: ts =>
    if t.id = id then
      if userRole ≠ "admin" ∧ t.assignee ≠ userName then
        .error .forbidden
      else
        let u := mergeFields title description status assignee now t
        .ok (u, u :: ts)
    else
      match updateIn userRole userName id title description status assignee now ts with
      | .error e => .error e
      | .ok (u, ts2) => .ok (u, t :: ts2)

/-- Mutation updateTask of server.js, wrapping updateIn: on success the
store holds the patched array and TASK_UPDATED is published. -/
def updateTask (ctx : Context) (id : String) (title description : Option String)
    (status : Option TaskStatus) (assignee : Option String) (now : Nat)
    (st : Store) : MutResult Task :=
  match updateIn ctx.userRole ctx.userName id title description status assignee now st.tasks with
  | .error e => ⟨.error e, st, []⟩
  | .ok (u, ts2) => ⟨.ok u, { st with tasks := ts2 }, [.taskUpdated u]⟩

/-- Body of deleteTask over the tasks array: findIndex on id, return
none (false, no error) at -1, throw forbidden unless the caller's role
is admin or the task's assignee equals the caller's name, else splice
out the first matching task. -/
def deleteIn (userRole userName : String) (id : String) :
    List Task → Except Err (Option (Task × List Task))
  | [] => .ok none
  | t :: ts =>
    if t.id = id then
      if userRole ≠ "admin" ∧ t.assignee ≠ userName then
        .error .forbidden
      else
        .ok (some (t, ts))
    else
      match deleteIn userRole userName id ts with
      | .error e => .error e
      | .ok none => .ok none
      | .ok (some (u, ts2)) => .ok (some (u, t :: ts2))

/-- Mutation deleteTask of server.js, wrapping deleteIn: unknown id
returns false with no error and no event; on success the task is
spliced out, every activity with this taskId is filtered out,
TASK_DELETED is published and true is returned. -/
def deleteTask (ctx : Context) (id : String) (st : Store) : MutResult Bool :=
  match deleteIn ctx.userRole ctx.userName id st.tasks with
  | .error e => ⟨.error e, st, []⟩
  | .ok none => ⟨.ok false, st, []⟩
  | .ok (some (_, ts2)) =>
    ⟨.ok true,
     { tasks := ts2, activities := st.activities.filter (fun a => a.taskId != id) },
     [.taskDeleted id]⟩

/-- Mutation addTaskActivity of server.js: throws when context.userId is
empty, throws notFound when no task has the given taskId, else appends
the activity (author := context.userName or "Unknown") and publishes
TASK_ACTIVITY_ADDED. -/
def addTaskActivity (ctx : Context) (taskId message : String)
    (newId : String) (now : Nat) (st : Store) : MutResult Activity :=
  if ctx.userId = "" then
    ⟨.error .authRequired, st, []⟩
  else if st.tasks.any (fun t => t.id == taskId) then
    let a : Activity :=
      { id := newId
        taskId := taskId
        message := message
        author := if ctx.userName ≠ "" then ctx.userName else "Unknown"
        createdAt := now }
    ⟨.ok a, { st with activities := st.activities ++ [a] }, [.activityAdded a]⟩
  else
    ⟨.error .notFound, st, []⟩

/-- Decoded JWT payload fields read by the context function. Absent
string fields are the empty string (falsy in the source); teams is
kept only when Array.isArray holds, hence an Option. -/
structure Payload where
  userId : String
  name : String
  email : String
  teams : Option (List String)
  role : String
deriving Repr, DecidableEq

/-- Bearer token: its header's alg field and its payload. Whether its
signature verifies under the cached public key is abstracted by the
sigValid argument of jwtVerify. -/
structure Token where
  alg : String
  payload : Payload
deriving Repr, DecidableEq

/-- Errors of the verification path: keyUnavailable is the "Public key
unavailable for token verification" throw of decodeToken; the other two
are jsonwebtoken verification failures. -/
inductive JwtError where
  | keyUnavailable
  | invalidAlgorithm
  | invalidSignature
deriving Repr, DecidableEq

/-- Model of jsonwebtoken's jwt.verify(token, key, with an algorithms
allowlist): a token whose alg is outside the allowlist is rejected; an
allowed token yields its payload exactly when the signature check
(abstracted as sigValid) passes. -/
def jwtVerify (sigValid : Bool) (algorithms : List String) (tok : Token) :
    Except JwtError Payload :=
  if algorithms.contains tok.alg then
    if sigValid then .ok tok.payload else .error .invalidSignature
  else .error .invalidAlgorithm

/-- getAuthPublicKey of server.js: returns the cached key when nonempty,
else the first nonempty endpoint response, else the empty string. A
fetch that throws is modelled as an empty response. -/
def getAuthPublicKey (cached : String) (responses : List String) : String :=
  if cached ≠ "" then cached
  else
    match responses.find? (fun r => r != "") with
    | some r => r
    | none => ""

/-- decodeToken of server.js: throws when the public key is empty,
otherwise jwt.verify with algorithms restricted to RS256 alone. -/
def decodeToken (publicKey : String) (sigValid : Bool) (tok : Token) :
    Except JwtError Payload :=
  if publicKey = "" then .error .keyUnavailable
  else jwtVerify sigValid ["RS256"] tok

/-- Forwarded identity headers read by the context function; an absent
header is the empty string (both are falsy under the source's use
of the or-operator). The authorization header's parsed bearer token is
passed separately as an Option Token. -/
structure Headers where
  xUserId : String
  xUserName : String
  xUserEmail : String
  xUserTeams : String
  xUserRole : String
deriving Repr, DecidableEq

/-- Teams header parsing of the context function:
headerTeams.split on the comma then filter(Boolean), empty list when the
header is absent or empty. -/
def parseTeams (s : String) : List String :=
  if s = "" then [] else (s.splitOn ",").filter (fun x => x != "")

/-- ApolloServer context function of server.js: header values with their
defaults (userName defaults to "Guest", userRole to "user"); when
x-user-id is empty and a bearer token is present, decodeToken is
attempted and, on success, truthy payload fields override the defaults.
A decode failure is caught (console.warn) and the header-derived
identity stands: the request itself never fails. -/
def buildContext (publicKey : String) (sigValid : Bool) (h : Headers)
    (token : Option Token) : Context :=
  let userId := h.xUserId
  let userName := if h.xUserName = "" then "Guest" else h.xUserName
  let userEmail := h.xUserEmail
  let userTeams := parseTeams h.xUserTeams
  let userRole := if h.xUserRole = "" then "user" else h.xUserRole
  if userId = "" then
    match token with
    | none => ⟨userId, userName, userEmail, userTeams, userRole⟩
    | some tok =>
      match decodeToken publicKey sigValid tok with
      | .error _ => ⟨userId, userName, userEmail, userTeams, userRole⟩
      | .ok d =>
        ⟨if d.userId = "" then userId else d.userId,
         if d.name = "" then userName else d.name,
         if d.email = "" then userEmail else d.email,
         (match d.teams with | some ts => ts | none => userTeams),
         if d.role = "" then userRole else d.role⟩
  else ⟨userId, userName, userEmail, userTeams, userRole⟩

/-- Headers of a request carrying no forwarded identity. -/
def emptyHeaders : Headers := ⟨"", "", "", "", ""⟩

/-- The empty store. -/
def emptyStore : Store := ⟨[], []⟩

/-! Helper lemmas about the list traversals of updateTask and
deleteTask (JavaScript findIndex finds the first match; under the
unique-ids invariant the member with the sought id is that match). -/

theorem uniqueIds_cons {t : Task} {ts : List Task} (h : uniqueIds (t :: ts) = true) :
    (∀ u ∈ ts, u.id ≠ t.id) ∧ uniqueIds ts = true := by
  simp only [uniqueIds, Bool.and_eq_true, List.all_eq_true] at h
  refine ⟨fun u hu => ?_, h.2⟩
  have := h.1 u hu
  simpa [bne_iff_ne] using this

theorem updateIn_notFound (userRole userName id : String)
    (title description : Option String) (status : Option TaskStatus)
    (assignee : Option String) (now : Nat) (l : List Task)
    (habs : ∀ u ∈ l, u.id ≠ id) :
    updateIn userRole userName id title description status assignee now l
      = .error .notFound := by
  induction l with
  | nil => rfl
  | cons t ts ih =>
    have ht : t.id ≠ id := habs t (List.mem_cons_self t ts)
    simp only [updateIn, if_neg ht]
    rw [ih (fun u hu => habs u (List.mem_cons_of_mem t hu))]

theorem updateIn_forbidden (userRole userName id : String)
    (title description : Option String) (status : Option TaskStatus)
    (assignee : Option String) (now : Nat) (l : List Task) (t : Task)
    (huniq : uniqueIds l = true) (hmem : t ∈ l) (hid : t.id = id)
    (hrole : userRole ≠ "admin") (hname : t.assignee ≠ userName) :
    updateIn userRole userName id title description status assignee now l
      = .error .forbidden := by
  induction l with
  | nil => cases hmem
  | cons t0 ts ih =>
    obtain ⟨hne, huniq2⟩ := uniqueIds_cons huniq
    rcases List.mem_cons.mp hmem with h | h
    · subst h
      simp only [updateIn, if_pos hid, if_pos (And.intro hrole hname)]
    · have ht0 : t0.id ≠ id := by
        intro he
        exact (hne t h) (hid.trans he.symm)
      simp only [updateIn, if_neg ht0]
      rw [ih huniq2 h]

theorem updateIn_allowed (userRole userName id : String)
    (title description : Option String) (status : Option TaskStatus)
    (assignee : Option String) (now : Nat) (l : List Task) (t : Task)
    (huniq : uniqueIds l = true) (hmem : t ∈ l) (hid : t.id = id)
    (hok : userRole = "admin" ∨ t.assignee = userName) :
    ∃ l2, updateIn userRole userName id title description status assignee now l
        = .ok (mergeFields title description status assignee now t, l2)
      ∧ mergeFields title description status assignee now t ∈ l2 := by
  induction l with
  | nil => cases hmem
  | cons t0 ts ih =>
    obtain ⟨hne, huniq2⟩ := uniqueIds_cons huniq
    rcases List.mem_cons.mp hmem with h | h
    · subst h
      have hcond : ¬(userRole ≠ "admin" ∧ t.assignee ≠ userName) := by
        rcases hok with h1 | h1
        · exact fun hc => hc.1 h1
        · exact fun hc => hc.2 h1
      refine ⟨mergeFields title description status assignee now t :: ts, ?_, List.mem_cons_self _ _⟩
      simp only [updateIn, if_pos hid, if_neg hcond]
    · have ht0 : t0.id ≠ id := by
        intro he
        exact (hne t h) (hid.trans he.symm)
      obtain ⟨l2, heq, hm⟩ := ih huniq2 h
      refine ⟨t0 :: l2, ?_, List.mem_cons_of_mem t0 hm⟩
      simp only [updateIn, if_neg ht0, heq]

theorem updateIn_ok_inv (userRole userName id : String)
    (title description : Option String) (status : Option TaskStatus)
    (assignee : Option String) (now : Nat) (l : List Task) (t u : Task)
    (l2 : List Task)
    (huniq : uniqueIds l = true) (hmem : t ∈ l) (hid : t.id = id)
    (heq : updateIn userRole userName id title description status assignee now l
      = .ok (u, l2)) :
    u = mergeFields title description status assignee now t := by
  induction l generalizing l2 with
  | nil => cases hmem
  | cons t0 ts ih =>
    obtain ⟨hne, huniq2⟩ := uniqueIds_cons huniq
    rcases List.mem_cons.mp hmem with h | h
    · subst h
      simp only [updateIn, if_pos hid] at heq
      by_cases hc : userRole ≠ "admin" ∧ t.assignee ≠ userName
      · rw [if_pos hc] at heq
        cases heq
      · rw [if_neg hc] at heq
        cases heq
        rfl
    · have ht0 : t0.id ≠ id := by
        intro he
        exact (hne t h) (hid.trans he.symm)
      simp only [updateIn, if_neg ht0] at heq
      cases hrec : updateIn userRole userName id title description status assignee now ts with
      | error e => rw [hrec] at heq; cases heq
      | ok p =>
        obtain ⟨u1, ts2⟩ := p
        rw [hrec] at heq
        cases heq
        exact ih ts2 huniq2 h hrec

theorem deleteIn_none (userRole userName id : String) (l : List Task)
    (habs : ∀ u ∈ l, u.id ≠ id) :
    deleteIn userRole userName id l = .ok none := by
  induction l with
  | nil => rfl
  | cons t ts ih =>
    have ht : t.id ≠ id := habs t (List.mem_cons_self t ts)
    simp only [deleteIn, if_neg ht]
    rw [ih (fun u hu => habs u (List.mem_cons_of_mem t hu))]

theorem deleteIn_forbidden (userRole userName id : String) (l : List Task) (t : Task)
    (huniq : uniqueIds l = true) (hmem : t ∈ l) (hid : t.id = id)
    (hrole : userRole ≠ "admin") (hname : t.assignee ≠ userName) :
    deleteIn userRole userName id l = .error .forbidden := by
  induction l with
  | nil => cases hmem
  | cons t0 ts ih =>
    obtain ⟨hne, huniq2⟩ := uniqueIds_cons huniq
    rcases List.mem_cons.mp hmem with h | h
    · subst h
      simp only [deleteIn, if_pos hid, if_pos (And.intro hrole hname)]
    · have ht0 : t0.id ≠ id := by
        intro he
        exact (hne t h) (hid.trans he.symm)
      simp only [deleteIn, if_neg ht0]
      rw [ih huniq2 h]

theorem deleteIn_some (userRole userName id : String) (l : List Task) (t : Task)
    (huniq : uniqueIds l = true) (hmem : t ∈ l) (hid : t.id = id)
    (hok : userRole = "admin" ∨ t.assignee = userName) :
    ∃ l2, deleteIn userRole userName id l = .ok (some (t, l2)) := by
  induction l with
  | nil => cases hmem
  | cons t0 ts ih =>
    obtain ⟨hne, huniq2⟩ := uniqueIds_cons huniq
    rcases List.mem_cons.mp hmem with h | h
    · subst h
      have hcond : ¬(userRole ≠ "admin" ∧ t.assignee ≠ userName) := by
        rcases hok with h1 | h1
        · exact fun hc => hc.1 h1
        · exact fun hc => hc.2 h1
      refine ⟨ts, ?_⟩
      simp only [deleteIn, if_pos hid, if_neg hcond]
    · have ht0 : t0.id ≠ id := by
        intro he
        exact (hne t h) (hid.trans he.symm)
      obtain ⟨l2, heq⟩ := ih huniq2 h
      refine ⟨t0 :: l2, ?_⟩
      simp only [deleteIn, if_neg ht0, heq]

theorem deleteIn_some_keeps (userRole userName id : String) (l : List Task)
    (t : Task) (l2 : List Task)
    (heq : deleteIn userRole userName id l = .ok (some (t, l2))) :
    ∀ u ∈ l, u.id ≠ id → u ∈ l2 := by
  induction l generalizing l2 with
  | nil => cases heq
  | cons t0 ts ih =>
    by_cases h0 : t0.id = id
    · simp only [deleteIn, if_pos h0] at heq
      by_cases hc : userRole ≠ "admin" ∧ t0.assignee ≠ userName
      · rw [if_pos hc] at heq; cases heq
      · rw [if_neg hc] at heq
        cases heq
        intro u hu hne
        rcases List.mem_cons.mp hu with h | h
        · exact absurd (h ▸ h0) hne
        · exact h
    · simp only [deleteIn, if_neg h0] at heq
      cases hrec : deleteIn userRole userName id ts with
      | error e => rw [hrec] at heq; cases heq
      | ok o =>
        rw [hrec] at heq
        cases o with
        | none => cases heq
        | some p =>
          obtain ⟨u0, ts2⟩ := p
          cases heq
          intro u hu hne
          rcases List.mem_cons.mp hu with h | h
          · exact h ▸ List.mem_cons_self _ _
          · exact List.mem_cons_of_mem _ (ih ts2 hrec u h hne)

theorem filter_ne_filter_eq (id : String) (l : List Activity) :
    (l.filter (fun a => a.taskId != id)).filter (fun a => a.taskId == id) = [] := by
  induction l with
  | nil => rfl
  | cons a l ih =>
    by_cases h : a.taskId = id
    · simp only [List.filter_cons, h]
      simp only [bne_self_eq_false, Bool.false_eq_true, if_neg]
      exact ih
    · simp only [List.filter_cons]
      have h1 : (a.taskId != id) = true := by simpa [bne_iff_ne] using h
      have h2 : (a.taskId == id) = false := by simpa using h
      rw [h1, if_pos rfl]
      simp only [List.filter_cons, h2]
      simp only [Bool.false_eq_true, if_neg]
      exact ih

/-! Concrete fixtures used by the witness theorems. -/

/-- Sample authenticated non-admin caller named Alice. -/
def ctxAlice : Context := ⟨"u1", "Alice", "alice@mail.test", [], "user"⟩

/-- Sample authenticated non-admin caller named Bob. -/
def ctxBob : Context := ⟨"u2", "Bob", "bob@mail.test", [], "user"⟩

/-- Sample task assigned to Alice. -/
def taskAlice : Task := ⟨"t1", "Setup project structure", "Init repo", .TODO, "Alice", 0, 0⟩

/-- Sample task assigned to the anonymous default name Guest. -/
def taskGuest : Task := ⟨"t2", "Open item", "Unowned", .TODO, "Guest", 0, 0⟩

/-- Sample store with the two tasks and one activity on t1. -/
def storeW : Store := ⟨[taskAlice, taskGuest], [⟨"a1", "t1", "Task created", "Alice", 0⟩]⟩

/-- C1: on an existing task, updateTask and deleteTask by a caller who is
neither admin nor the assignee throw forbidden and leave the store (and
events) untouched; a caller with role admin or whose name equals the
assignee is permitted (updateTask returns a task, deleteTask returns
true). -/
theorem update_delete_authorization (ctx : Context) (t : Task) (st : Store)
    (title description : Option String) (status : Option TaskStatus)
    (assignee : Option String) (now : Nat)
    (huniq : uniqueIds st.tasks = true) (hmem : t ∈ st.tasks) :
    (ctx.userRole ≠ "admin" → ctx.userName ≠ t.assignee →
      updateTask ctx t.id title description status assignee now st = ⟨.error .forbidden, st, []⟩ ∧
      deleteTask ctx t.id st = ⟨.error .forbidden, st, []⟩) ∧
    (ctx.userRole = "admin" ∨ ctx.userName = t.assignee →
      (∃ u, (updateTask ctx t.id title description status assignee now st).result = .ok u) ∧
      (deleteTask ctx t.id st).result = .ok true) := by
  constructor
  · intro hrole hname
    have h1 := updateIn_forbidden ctx.userRole ctx.userName t.id title description
      status assignee now st.tasks t huniq hmem rfl hrole (Ne.symm hname)
    have h2 := deleteIn_forbidden ctx.userRole ctx.userName t.id st.tasks t
      huniq hmem rfl hrole (Ne.symm hname)
    constructor
    · unfold updateTask
      rw [h1]
    · unfold deleteTask
      rw [h2]
  · intro hok
    have hok2 : ctx.userRole = "admin" ∨ t.assignee = ctx.userName := by
      rcases hok with h | h
      · exact Or.inl h
      · exact Or.inr h.symm
    obtain ⟨l2, heq, _⟩ := updateIn_allowed ctx.userRole ctx.userName t.id title
      description status assignee now st.tasks t huniq hmem rfl hok2
    obtain ⟨l3, heq2⟩ := deleteIn_some ctx.userRole ctx.userName t.id st.tasks t
      huniq hmem rfl hok2
    constructor
    · refine ⟨mergeFields title description status assignee now t, ?_⟩
      unfold updateTask
      rw [heq]
    · unfold deleteTask
      rw [heq2]

/-- C1 witness: Bob (role user, not the assignee) is refused on Alice's
task and the store is unchanged. -/
theorem update_delete_authorization_witness :
    uniqueIds storeW.tasks = true ∧ taskAlice ∈ storeW.tasks ∧
    ctxBob.userRole ≠ "admin" ∧ ctxBob.userName ≠ taskAlice.assignee ∧
    (updateTask ctxBob taskAlice.id none none none none 5 storeW = ⟨.error .forbidden, storeW, []⟩ ∧
     deleteTask ctxBob taskAlice.id storeW = ⟨.error .forbidden, storeW, []⟩) :=
  ⟨by decide, by decide, by decide, by decide,
   (update_delete_authorization ctxBob taskAlice storeW none none none none 5
     (by decide) (by decide)).1 (by decide) (by decide)⟩

/-- C3: updateTask on an unknown id throws notFound with the store and
events untouched; on an existing id, for a permitted caller, exactly the
provided fields change: every absent field keeps its previous value, the
id and createdAt are preserved, updatedAt is stamped to now, the updated
task is returned, stored, and published. -/
theorem updateTask_partial_merge (ctx : Context) (id : String)
    (title description : Option String) (status : Option TaskStatus)
    (assignee : Option String) (now : Nat) (st : Store) (t : Task)
    (huniq : uniqueIds st.tasks = true) :
    ((∀ u ∈ st.tasks, u.id ≠ id) →
      updateTask ctx id title description status assignee now st = ⟨.error .notFound, st, []⟩) ∧
    (t ∈ st.tasks → t.id = id → (ctx.userRole = "admin" ∨ ctx.userName = t.assignee) →
      ∃ u, (updateTask ctx id title description status assignee now st).result = .ok u ∧
        u ∈ (updateTask ctx id title description status assignee now st).store.tasks ∧
        (updateTask ctx id title description status assignee now st).events = [.taskUpdated u] ∧
        u.id = t.id ∧ u.createdAt = t.createdAt ∧ u.updatedAt = now ∧
        (title = none → u.title = t.title) ∧
        (description = none → u.description = t.description) ∧
        (status = none → u.status = t.status) ∧
        (assignee = none → u.assignee = t.assignee)) := by
  constructor
  · intro habs
    unfold updateTask
    rw [updateIn_notFound ctx.userRole ctx.userName id title description status
      assignee now st.tasks habs]
  · intro hmem hid hok
    have hok2 : ctx.userRole = "admin" ∨ t.assignee = ctx.userName := by
      rcases hok with h | h
      · exact Or.inl h
      · exact Or.inr h.symm
    obtain ⟨l2, heq, hm⟩ := updateIn_allowed ctx.userRole ctx.userName id title
      description status assignee now st.tasks t huniq hmem hid hok2
    refine ⟨mergeFields title description status assignee now t, ?_, ?_, ?_, rfl, rfl, rfl,
      ?_, ?_, ?_, ?_⟩
    · unfold updateTask
      rw [heq]
    · unfold updateTask
      rw [heq]
      exact hm
    · unfold updateTask
      rw [heq]
    · intro h
      subst h
      rfl
    · intro h
      subst h
      rfl
    · intro h
      subst h
      rfl
    · intro h
      subst h
      rfl

/-- C3 witness: Alice patches only description and status of her task;
title and assignee keep their values, updatedAt becomes 5, and the
patched task is returned. -/
theorem updateTask_partial_merge_witness :
    uniqueIds storeW.tasks = true ∧ taskAlice ∈ storeW.tasks ∧ taskAlice.id = "t1" ∧
    (ctxAlice.userRole = "admin" ∨ ctxAlice.userName = taskAlice.assignee) ∧
    (∃ u, (updateTask ctxAlice "t1" none (some "Revised") (some .DONE) none 5 storeW).result = .ok u ∧
      u ∈ (updateTask ctxAlice "t1" none (some "Revised") (some .DONE) none 5 storeW).store.tasks ∧
      (updateTask ctxAlice "t1" none (some "Revised") (some .DONE) none 5 storeW).events = [.taskUpdated u] ∧
      u.id = taskAlice.id ∧ u.createdAt = taskAlice.createdAt ∧ u.updatedAt = 5 ∧
      (none = (none : Option String) → u.title = taskAlice.title) ∧
      ((some "Revised") = none → u.description = taskAlice.description) ∧
      ((some TaskStatus.DONE) = none → u.status = taskAlice.status) ∧
      (none = (none : Option String) → u.assignee = taskAlice.assignee)) :=
  ⟨by decide, by decide, by decide, by decide,
   (updateTask_partial_merge ctxAlice "t1" none (some "Revised") (some .DONE) none 5
     storeW taskAlice (by decide)).2 (by decide) (by decide) (by decide)⟩

/-- C4: deleteTask on an id absent from the store returns false for
every caller identity (no authorization or authentication consulted),
throws nothing, publishes nothing, and leaves the store unchanged. -/
theorem deleteTask_missing_id (ctx : Context) (id : String) (st : Store)
    (habs : ∀ u ∈ st.tasks, u.id ≠ id) :
    deleteTask ctx id st = ⟨.ok false, st, []⟩ := by
  unfold deleteTask
  rw [deleteIn_none ctx.userRole ctx.userName id st.tasks habs]

/-- C4 witness: deleting the unknown id t9 returns false with no error,
no event and an unchanged store. -/
theorem deleteTask_missing_id_witness :
    (∀ u ∈ storeW.tasks, u.id ≠ "t9") ∧
    deleteTask ctxBob "t9" storeW = ⟨.ok false, storeW, []⟩ :=
  ⟨by decide, deleteTask_missing_id ctxBob "t9" storeW (by decide)⟩

/-- C5: a successful deleteTask removes, in the same step, the task and
every activity carrying its id: afterwards listActivities for that id is
empty, and referential integrity (every activity names an existing
task), if it held before, still holds. -/
theorem deleteTask_purges_activities (ctx : Context) (id : String) (st : Store)
    (hok : (deleteTask ctx id st).result = .ok true)
    (hinv : refIntact st = true) :
    listActivities (deleteTask ctx id st).store id = [] ∧
    refIntact (deleteTask ctx id st).store = true := by
  cases hd : deleteIn ctx.userRole ctx.userName id st.tasks with
  | error e =>
    unfold deleteTask at hok
    rw [hd] at hok
    simp at hok
  | ok o =>
    cases o with
    | none =>
      unfold deleteTask at hok
      rw [hd] at hok
      simp at hok
    | some p =>
      obtain ⟨t, ts2⟩ := p
      have hst : (deleteTask ctx id st).store
          = ⟨ts2, st.activities.filter (fun a => a.taskId != id)⟩ := by
        unfold deleteTask
        rw [hd]
      rw [hst]
      constructor
      · exact filter_ne_filter_eq id st.activities
      · unfold refIntact at hinv ⊢
        rw [List.all_eq_true] at hinv ⊢
        intro a ha
        have hmemA := List.mem_filter.mp ha
        have hane : a.taskId ≠ id := by
          have := hmemA.2
          simpa [bne_iff_ne] using this
        have hany := hinv a hmemA.1
        rw [List.any_eq_true] at hany
        obtain ⟨t2, ht2, hbeq⟩ := hany
        have hid2 : t2.id = a.taskId := by simpa using hbeq
        have ht2ne : t2.id ≠ id := by
          rw [hid2]
          exact hane
        have ht2in : t2 ∈ ts2 :=
          deleteIn_some_keeps ctx.userRole ctx.userName id st.tasks t ts2 hd t2 ht2 ht2ne
        rw [List.any_eq_true]
        exact ⟨t2, ht2in, hbeq⟩

/-- C5 witness: Alice deletes her task t1; its activity list empties and
referential integrity survives. -/
theorem deleteTask_purges_activities_witness :
    (deleteTask ctxAlice "t1" storeW).result = .ok true ∧
    refIntact storeW = true ∧
    (listActivities (deleteTask ctxAlice "t1" storeW).store "t1" = [] ∧
     refIntact (deleteTask ctxAlice "t1" storeW).store = true) :=
  ⟨by rfl, by decide,
   deleteTask_purges_activities ctxAlice "t1" storeW (by rfl) (by decide)⟩

/-- C2 counterexample: createTask called with empty title and empty
description by an authenticated caller does not fail with a validation
error; it succeeds and the task is appended to the store. The source
resolver checks only context.userId; no emptiness check exists. -/
theorem createTask_empty_accepted_cex :
    (createTask ctxAlice "" "" "Alice" "t9" 7 emptyStore).result
      = .ok ⟨"t9", "", "", .TODO, "Alice", 7, 7⟩ ∧
    (createTask ctxAlice "" "" "Alice" "t9" 7 emptyStore).store.tasks
      = [⟨"t9", "", "", .TODO, "Alice", 7, 7⟩] :=
  ⟨rfl, rfl⟩

/-- C2 amended: createTask performs no emptiness validation: a call with
empty title or empty description by an authenticated caller succeeds,
the task (carrying the empty fields verbatim) is appended, and
TASK_CREATED is published. -/
theorem createTask_no_validation (ctx : Context)
    (title description assignee newId : String) (now : Nat) (st : Store)
    (hauth : ctx.userId ≠ "") (_hempty : title = "" ∨ description = "") :
    ∃ t, createTask ctx title description assignee newId now st
        = ⟨.ok t, { st with tasks := st.tasks ++ [t] }, [.taskCreated t]⟩ ∧
      t.title = title ∧ t.description = description := by
  refine ⟨{ id := newId, title := title, description := description, status := .TODO,
            assignee := if assignee ≠ "" then assignee
              else if ctx.userName ≠ "" then ctx.userName else "Unassigned",
            createdAt := now, updatedAt := now }, ?_, rfl, rfl⟩
  unfold createTask
  rw [if_neg hauth]

/-- C2 amended witness: Alice creates a task with empty title and
description; it succeeds and is stored. -/
theorem createTask_no_validation_witness :
    ctxAlice.userId ≠ "" ∧ (("" : String) = "" ∨ ("" : String) = "") ∧
    (∃ t, createTask ctxAlice "" "" "Alice" "t9" 7 emptyStore
        = ⟨.ok t, { emptyStore with tasks := emptyStore.tasks ++ [t] }, [.taskCreated t]⟩ ∧
      t.title = "" ∧ t.description = "") :=
  ⟨by decide, Or.inl rfl,
   createTask_no_validation ctxAlice "" "" "Alice" "t9" 7 emptyStore
     (by decide) (Or.inl rfl)⟩

/-- C6: for an authenticated caller (nonempty userId) createTask returns
a task with status TODO, createdAt equal to updatedAt (both now), the
freshly allocated id, and assignee defaulting to the caller's display
name when the assignee argument is empty and the name is nonempty; an
unauthenticated caller (empty userId) gets the authentication error and
the store is untouched. -/
theorem createTask_contract (ctx : Context)
    (title description assignee newId : String) (now : Nat) (st : Store)
    (_hvalid : title ≠ "" ∧ description ≠ "") :
    (ctx.userId = "" → createTask ctx title description assignee newId now st
        = ⟨.error .authRequired, st, []⟩) ∧
    (ctx.userId ≠ "" → ∃ t, createTask ctx title description assignee newId now st
          = ⟨.ok t, { st with tasks := st.tasks ++ [t] }, [.taskCreated t]⟩ ∧
        t.status = .TODO ∧ t.createdAt = now ∧ t.updatedAt = now ∧ t.id = newId ∧
        ((∀ u ∈ st.tasks, u.id ≠ newId) → ∀ u ∈ st.tasks, u.id ≠ t.id) ∧
        (assignee = "" → ctx.userName ≠ "" → t.assignee = ctx.userName)) := by
  constructor
  · intro h
    unfold createTask
    rw [if_pos h]
  · intro h
    refine ⟨{ id := newId, title := title, description := description, status := .TODO,
              assignee := if assignee ≠ "" then assignee
                else if ctx.userName ≠ "" then ctx.userName else "Unassigned",
              createdAt := now, updatedAt := now }, ?_, rfl, rfl, rfl, rfl, ?_, ?_⟩
    · unfold createTask
      rw [if_neg h]
    · intro habs u hu
      exact habs u hu
    · intro ha hn
      subst ha
      show (if ("" : String) ≠ "" then ""
            else if ctx.userName ≠ "" then ctx.userName else "Unassigned") = ctx.userName
      rw [if_neg (fun hc => hc rfl), if_pos hn]

/-- C6 witness: Alice, authenticated, creates a task with an empty
assignee argument; it comes back TODO with createdAt = updatedAt = 7,
id t9 and assignee Alice. -/
theorem createTask_contract_witness :
    ("Fix build" ≠ "" ∧ "CI is red" ≠ "") ∧ ctxAlice.userId ≠ "" ∧
    (∃ t, createTask ctxAlice "Fix build" "CI is red" "" "t9" 7 emptyStore
        = ⟨.ok t, { emptyStore with tasks := emptyStore.tasks ++ [t] }, [.taskCreated t]⟩ ∧
      t.status = .TODO ∧ t.createdAt = 7 ∧ t.updatedAt = 7 ∧ t.id = "t9" ∧
      ((∀ u ∈ emptyStore.tasks, u.id ≠ "t9") → ∀ u ∈ emptyStore.tasks, u.id ≠ t.id) ∧
      (("" : String) = "" → ctxAlice.userName ≠ "" → t.assignee = ctxAlice.userName)) :=
  ⟨by decide, by decide,
   (createTask_contract ctxAlice "Fix build" "CI is red" "" "t9" 7 emptyStore
     (by decide)).2 (by decide)⟩

/-- Sample well-formed RS256 bearer token for Bob. -/
def tokBob : Token := ⟨"RS256", ⟨"u2", "Bob", "bob@mail.test", none, "user"⟩⟩

/-- Sample token signed with HS256 instead of RS256. -/
def tokHS : Token := ⟨"HS256", ⟨"u2", "Bob", "bob@mail.test", none, "admin"⟩⟩

/-- The identity a request gets when it carries no forwarded headers and
no usable credential: empty userId, name Guest, role user. -/
def anonCtx : Context := ⟨"", "Guest", "", [], "user"⟩

/-- C7 counterexample: with an empty key cache, decodeToken fails with
keyUnavailable, yet the request does not fail: the ApolloServer context
function catches the failure (console.warn) and returns the anonymous
identity. A failed verification silently degrades the caller to
anonymous, contradicting the claimed contract. -/
theorem token_failure_degrades_cex :
    decodeToken "" true tokBob = .error .keyUnavailable ∧
    buildContext "" true emptyHeaders (some tokBob) = anonCtx :=
  ⟨rfl, rfl⟩

/-- C7 amended: decodeToken, given a bearer credential, either yields
the token's own payload or fails — with keyUnavailable whenever the
cached key is empty (in particular after every key endpoint returned
empty content); but a decode failure is caught by the request handler,
which falls back to the header-derived identity (anonymous when no
trusted headers are present) instead of failing the request. -/
theorem decode_failure_fallback (pk : String) (sv : Bool) (tok : Token)
    (h : Headers) (rs : List String) (hid : h.xUserId = "") :
    (pk = "" → decodeToken pk sv tok = .error .keyUnavailable) ∧
    (∀ p, decodeToken pk sv tok = .ok p → p = tok.payload) ∧
    ((∀ r ∈ rs, r = "") → getAuthPublicKey "" rs = "") ∧
    ((∀ p, decodeToken pk sv tok ≠ .ok p) →
      buildContext pk sv h (some tok) = buildContext pk sv h none) := by
  refine ⟨?_, ?_, ?_, ?_⟩
  · intro h0
    unfold decodeToken
    rw [if_pos h0]
  · intro p hp
    unfold decodeToken at hp
    split at hp
    · cases hp
    · unfold jwtVerify at hp
      split at hp
      · split at hp
        · injection hp with h2
          exact h2.symm
        · cases hp
      · cases hp
  · intro hall
    unfold getAuthPublicKey
    rw [if_neg (fun hc => hc rfl)]
    have hfind : rs.find? (fun r => r != "") = none := by
      rw [List.find?_eq_none]
      intro x hx
      simp [hall x hx]
    rw [hfind]
  · intro hfail
    cases hres : decodeToken pk sv tok with
    | ok p => exact absurd hres (hfail p)
    | error e =>
      simp only [buildContext, hid]
      rw [hres]

/-- C7 amended witness: with the empty key cache Bob's request, carrying
his valid-looking RS256 token and no headers, proceeds with the same
identity as a request with no credential at all. -/
theorem decode_failure_fallback_witness :
    emptyHeaders.xUserId = "" ∧
    buildContext "" true emptyHeaders (some tokBob)
      = buildContext "" true emptyHeaders none :=
  ⟨rfl, (decode_failure_fallback "" true tokBob emptyHeaders [""] rfl).2.2.2
    (fun p hp => by simp [decodeToken] at hp)⟩

/-- C8: algorithm-confusion defense: a token whose alg field is not
RS256 is rejected by decodeToken for every key and signature outcome; a
successful decode implies the alg was RS256 and the payload is the
token's own; and a non-RS256 token never contributes a verified
identity — the context falls back to the header-derived identity. -/
theorem rs256_only (pk : String) (sv : Bool) (tok : Token) (h : Headers) :
    (tok.alg ≠ "RS256" → ∀ p, decodeToken pk sv tok ≠ .ok p) ∧
    (∀ p, decodeToken pk sv tok = .ok p → tok.alg = "RS256") ∧
    (tok.alg ≠ "RS256" → h.xUserId = "" →
      buildContext pk sv h (some tok) = buildContext pk sv h none) := by
  have key : tok.alg ≠ "RS256" → ∀ p, decodeToken pk sv tok ≠ .ok p := by
    intro halg p hp
    unfold decodeToken at hp
    split at hp
    · cases hp
    · unfold jwtVerify at hp
      have hc : ¬(List.contains ["RS256"] tok.alg = true) := by
        simp [halg]
      rw [if_neg hc] at hp
      cases hp
  refine ⟨key, ?_, ?_⟩
  · intro p hp
    by_cases halg : tok.alg = "RS256"
    · exact halg
    · exact absurd hp (key halg p)
  · intro halg hid
    cases hres : decodeToken pk sv tok with
    | ok p => exact absurd hres (key halg p)
    | error e =>
      simp only [buildContext, hid]
      rw [hres]

/-- C8 witness: an HS256 token, otherwise well-formed, is rejected and
yields the same identity as no credential. -/
theorem rs256_only_witness :
    tokHS.alg ≠ "RS256" ∧ emptyHeaders.xUserId = "" ∧
    buildContext "pk" true emptyHeaders (some tokHS)
      = buildContext "pk" true emptyHeaders none :=
  ⟨by decide, rfl,
   (rs256_only "pk" true tokHS emptyHeaders).2.2 (by decide) rfl⟩

/-- C9: updateTask and deleteTask never consult the caller's userId
(replacing it leaves both calls unchanged); a request with no forwarded
headers and no credential gets the anonymous identity anonCtx with
userId empty, name Guest and role user; and that anonymous caller is
authorized on any stored task whose assignee is Guest: updateTask
succeeds and deleteTask returns true, with no credential involved. -/
theorem anonymous_guest_can_mutate (ctx : Context) (uid : String)
    (st : Store) (t : Task) (now : Nat)
    (huniq : uniqueIds st.tasks = true) (hmem : t ∈ st.tasks)
    (hguest : t.assignee = "Guest") :
    buildContext "" false emptyHeaders none = anonCtx ∧
    anonCtx.userId = "" ∧
    updateTask { ctx with userId := uid } t.id none none none none now st
      = updateTask ctx t.id none none none none now st ∧
    deleteTask { ctx with userId := uid } t.id st = deleteTask ctx t.id st ∧
    (∃ u, (updateTask anonCtx t.id none none none none now st).result = .ok u) ∧
    (deleteTask anonCtx t.id st).result = .ok true := by
  have hname : t.assignee = anonCtx.userName := hguest.trans rfl
  refine ⟨rfl, rfl, rfl, rfl, ?_, ?_⟩
  · obtain ⟨l2, heq, _⟩ := updateIn_allowed anonCtx.userRole anonCtx.userName t.id
      none none none none now st.tasks t huniq hmem rfl (Or.inr hname)
    refine ⟨mergeFields none none none none now t, ?_⟩
    unfold updateTask
    rw [heq]
  · obtain ⟨l2, heq⟩ := deleteIn_some anonCtx.userRole anonCtx.userName t.id
      st.tasks t huniq hmem rfl (Or.inr hname)
    unfold deleteTask
    rw [heq]

/-- C9 witness: with no credential at all, the anonymous Guest caller
updates and deletes the stored task assigned to Guest. -/
theorem anonymous_guest_can_mutate_witness :
    uniqueIds storeW.tasks = true ∧ taskGuest ∈ storeW.tasks ∧
    taskGuest.assignee = "Guest" ∧
    (buildContext "" false emptyHeaders none = anonCtx ∧
     anonCtx.userId = "" ∧
     updateTask { ctxBob with userId := "u9" } taskGuest.id none none none none 5 storeW
       = updateTask ctxBob taskGuest.id none none none none 5 storeW ∧
     deleteTask { ctxBob with userId := "u9" } taskGuest.id storeW
       = deleteTask ctxBob taskGuest.id storeW ∧
     (∃ u, (updateTask anonCtx taskGuest.id none none none none 5 storeW).result = .ok u) ∧
     (deleteTask anonCtx taskGuest.id storeW).result = .ok true) :=
  ⟨by decide, by decide, by decide,
   anonymous_guest_can_mutate ctxBob "u9" storeW taskGuest 5
     (by decide) (by decide) (by decide)⟩

theorem updateIn_empty_strings (userRole userName id : String)
    (status : Option TaskStatus) (now : Nat) (l : List Task) :
    updateIn userRole userName id (some "") (some "") status (some "") now l
      = updateIn userRole userName id none none status none now l := by
  induction l with
  | nil => rfl
  | cons t ts ih =>
    by_cases h0 : t.id = id
    · have hm : mergeFields (some "") (some "") status (some "") now t
          = mergeFields none none status none now t := by
        simp [mergeFields, mergeStr]
      simp only [updateIn, if_pos h0, hm]
    · simp only [updateIn, if_neg h0, ih]

/-- C10: updateTask treats a field supplied as the empty string exactly
like an absent field (both are falsy under the source's truthiness
spread): a call passing the empty string for title, description and
assignee equals the call omitting them, and when such a call succeeds
the task keeps its previous title, description and assignee — updateTask
can never set these fields to the empty string. -/
theorem updateTask_empty_string_ignored (ctx : Context) (id : String)
    (status : Option TaskStatus) (now : Nat) (st : Store) (t : Task)
    (huniq : uniqueIds st.tasks = true) (hmem : t ∈ st.tasks) (hid : t.id = id) :
    updateTask ctx id (some "") (some "") status (some "") now st
      = updateTask ctx id none none status none now st ∧
    (∀ u, (updateTask ctx id (some "") (some "") status (some "") now st).result = .ok u →
      u.title = t.title ∧ u.description = t.description ∧ u.assignee = t.assignee) := by
  have h1 : updateTask ctx id (some "") (some "") status (some "") now st
      = updateTask ctx id none none status none now st := by
    unfold updateTask
    rw [updateIn_empty_strings]
  refine ⟨h1, ?_⟩
  intro u hu
  rw [h1] at hu
  cases hres : updateIn ctx.userRole ctx.userName id none none status none now st.tasks with
  | error e =>
    unfold updateTask at hu
    rw [hres] at hu
    cases hu
  | ok p =>
    obtain ⟨u1, l2⟩ := p
    unfold updateTask at hu
    rw [hres] at hu
    have hinv := updateIn_ok_inv ctx.userRole ctx.userName id none none status none
      now st.tasks t u1 l2 huniq hmem hid hres
    have hu2 : u1 = u := by
      injection hu
    rw [← hu2, hinv]
    exact ⟨rfl, rfl, rfl⟩

/-- C10 witness: Alice updates her task passing empty strings for title,
description and assignee together with a status change; the call equals
the omitted-fields call and the surviving task keeps its text fields. -/
theorem updateTask_empty_string_ignored_witness :
    uniqueIds storeW.tasks = true ∧ taskAlice ∈ storeW.tasks ∧ taskAlice.id = "t1" ∧
    (updateTask ctxAlice "t1" (some "") (some "") (some .IN_PROGRESS) (some "") 5 storeW
       = updateTask ctxAlice "t1" none none (some .IN_PROGRESS) none 5 storeW ∧
     (∀ u, (updateTask ctxAlice "t1" (some "") (some "") (some .IN_PROGRESS) (some "") 5 storeW).result = .ok u →
       u.title = taskAlice.title ∧ u.description = taskAlice.description ∧
       u.assignee = taskAlice.assignee)) :=
  ⟨by decide, by decide, by decide,
   updateTask_empty_string_ignored ctxAlice "t1" (some .IN_PROGRESS) 5 storeW taskAlice
     (by decide) (by decide) (by decide)⟩

end TaskService
